import Mathlib

/-!
Verification development for the plugin-host repository
(`src/core/config.py`, `src/core/plugin_loader.py`, `src/core/server.py`).

The Python code is shallowly embedded: JSON-like configuration values
become the inductive `Value`; Python `dict`s become insertion-ordered
association lists; the mutable loader object becomes the record
`LoaderState` threaded through pure functions; observable side effects
(calls to plugin `setup`/`teardown`, log lines) become an explicit
`List Event` returned alongside the new state.  Python string operations
are modelled on the character list `String.data`, matching Python's view
of a `str` as a sequence of code points.
-/

namespace PluginHost

/-- JSON-like configuration values, as produced by `json.load` in
`ConfigManager.load_config` (`src/core/config.py`).  Objects keep their
fields as an insertion-ordered association list, the model of a Python
`dict`. -/
inductive Value where
  | str : String → Value
  | num : Int → Value
  | bool : Bool → Value
  | null : Value
  | obj : List (String × Value) → Value
  | arr : List Value → Value

/-- Lookup in a Python `dict` modelled as an association list
(`d[k]` / `k in d`): first binding of the key, `none` when absent.
Keys are unique in every state reachable by the embedded operations. -/
def assocGet (l : List (String × α)) (k : String) : Option α :=
  match l with
  | [] => none
  | (k', v) :: t => if k' = k then some v else assocGet t k

/-- Python `d[k] = v`: update the binding in place when the key exists,
append a new binding otherwise (insertion order of `dict`). -/
def assocSet (l : List (String × α)) (k : String) (v : α) : List (String × α) :=
  match l with
  | [] => [(k, v)]
  | (k', v') :: t => if k' = k then (k, v) :: t else (k', v') :: assocSet t k v

/-- Python `del d[k]` (on a dict with unique keys): drop the binding. -/
def assocDel (l : List (String × α)) (k : String) : List (String × α) :=
  match l with
  | [] => []
  | (k', v') :: t => if k' = k then t else (k', v') :: assocDel t k

/-- Python `str.split(".")` as used by `ConfigManager.get`/`set`:
split the character sequence on the dot character; never empty. -/
def splitDotChars : List Char → List (List Char)
  | [] => [[]]
  | c :: cs =>
    if c = '.' then [] :: splitDotChars cs
    else
      match splitDotChars cs with
      | h :: t => (c :: h) :: t
      | [] => [[c]]

/-- `key_path.split(".")` on strings. -/
def splitDot (s : String) : List String :=
  (splitDotChars s.data).map (fun l => ⟨l⟩)

/-- The loop body of `ConfigManager.get` (`src/core/config.py` lines
106-115): walk the already-split key list; descend only while the
current value is a mapping containing the key, otherwise return the
default immediately. -/
def getWalk (d : Value) : Value → List String → Value
  | v, [] => v
  | .obj fields, k :: ks =>
    match assocGet fields k with
    | some v => getWalk d v ks
    | none => d
  | _, _ :: _ => d

/-- `ConfigManager.get(key_path, default)`. -/
def configGet (cfg : Value) (key_path : String) (d : Value) : Value :=
  getWalk d cfg (splitDot key_path)

/-- Specification-side path lookup: the value stored at a dotted path,
`none` when a key is absent or an intermediate value is not a mapping.
Used to state what "the stored value" means, independently of
`ConfigManager.get`'s control flow. -/
def lookupPath : Value → List String → Option Value
  | v, [] => some v
  | .obj fields, k :: ks => (assocGet fields k).bind (fun v => lookupPath v ks)
  | _, _ :: _ => none

theorem getWalk_eq_lookupPath (d : Value) :
    ∀ (ks : List String) (v : Value), getWalk d v ks = (lookupPath v ks).getD d := by
  intro ks
  induction ks with
  | nil => intro v; cases v <;> rfl
  | cons k ks ih =>
    intro v
    cases v with
    | obj fields =>
      simp only [getWalk, lookupPath]
      cases assocGet fields k with
      | none => rfl
      | some w => simpa using ih w
    | str s => rfl
    | num n => rfl
    | bool b => rfl
    | null => rfl
    | arr l => rfl

/-- The string test-and-replace of `ConfigManager._process_env_vars`
(`src/core/config.py` lines 64-66): a value that starts with the two
characters dollar, open-brace and ends with close-brace is replaced by
the environment variable named between them (`value[2:-1]`), or the
empty string when that variable is unset.  The process environment is
modelled as `env : String → Option String`. -/
def interpEnvString (env : String → Option String) (s : String) : String :=
  match s.data with
  | '$' :: '{' :: rest =>
    match rest.getLast? with
    | some '}' => (env ⟨rest.dropLast⟩).getD ""
    | _ => s
  | _ => s

mutual
/-- `ConfigManager._process_env_vars` (`src/core/config.py` lines 54-67)
as a pure transformation: recurse into mapping values, replace string
values of the environment-reference form, leave every other value —
sequences included — untouched. -/
def processEnvVars (env : String → Option String) : Value → Value
  | .obj fields => .obj (processFields env fields)
  | .str s => .str (interpEnvString env s)
  | v => v

/-- The `for key, value in config_dict.items()` loop of
`_process_env_vars`, transforming each field's value. -/
def processFields (env : String → Option String) : List (String × Value) → List (String × Value)
  | [] => []
  | (k, v) :: t => (k, processEnvVars env v) :: processFields env t
end

/-- The walk of `ConfigManager.set` (`src/core/config.py` lines 117-135)
on an already-split key list.  Navigates to the parent of the last key,
creating empty mappings for missing intermediate keys, then overwrites
the leaf.  A non-mapping intermediate value makes the Python code raise
(`TypeError` on indexing/assignment), modelled as `none`. -/
def setWalk : Value → List String → Value → Option Value
  | .obj fields, [k], v => some (.obj (assocSet fields k v))
  | .obj fields, k :: k' :: ks, v =>
    let child := (assocGet fields k).getD (.obj [])
    (setWalk child (k' :: ks) v).map (fun c => .obj (assocSet fields k c))
  | _, _, _ => none

/-- `ConfigManager.set(key_path, value)`; `none` models the raising
paths. -/
def configSet (cfg : Value) (key_path : String) (v : Value) : Option Value :=
  setWalk cfg (splitDot key_path) v

@[simp]
theorem assocGet_assocSet_self (l : List (String × α)) (k : String) (v : α) :
    assocGet (assocSet l k v) k = some v := by
  induction l with
  | nil => simp [assocGet, assocSet]
  | cons h t ih =>
    obtain ⟨k', v'⟩ := h
    by_cases hk : k' = k <;> simp [assocGet, assocSet, hk, ih]

theorem assocGet_processFields (env : String → Option String)
    (fields : List (String × Value)) (k : String) :
    assocGet (processFields env fields) k = (assocGet fields k).map (processEnvVars env) := by
  induction fields with
  | nil => simp [assocGet, processFields]
  | cons h t ih =>
    obtain ⟨k', v'⟩ := h
    by_cases hk : k' = k <;> simp [assocGet, processFields, hk, ih]

@[simp]
theorem lookupPath_nil (v : Value) : lookupPath v [] = some v := by
  cases v <;> rfl

/-- Interpolation commutes with path lookup: the value stored at a path
after `_process_env_vars` is the processed original value. -/
theorem lookupPath_processEnvVars (env : String → Option String) :
    ∀ (ks : List String) (v w : Value), lookupPath v ks = some w →
      lookupPath (processEnvVars env v) ks = some (processEnvVars env w) := by
  intro ks
  induction ks with
  | nil =>
    intro v w h
    simp only [lookupPath_nil, Option.some.injEq] at h
    subst h
    exact lookupPath_nil _
  | cons k ks ih =>
    intro v w h
    cases v with
    | obj fields =>
      simp only [lookupPath, Option.bind_eq_some] at h
      obtain ⟨v', hget, hlook⟩ := h
      simp only [processEnvVars, lookupPath, assocGet_processFields, hget,
        Option.map_some, Option.bind_eq_some]
      exact ⟨processEnvVars env v', rfl, ih v' w hlook⟩
    | str s => simp [lookupPath] at h
    | num n => simp [lookupPath] at h
    | bool b => simp [lookupPath] at h
    | null => simp [lookupPath] at h
    | arr l => simp [lookupPath] at h

theorem interpEnvString_envRef (env : String → Option String) (n : String) :
    interpEnvString env ⟨'$' :: '{' :: (n.data ++ ['}'])⟩ = (env n).getD "" := by
  simp only [interpEnvString]
  simp [List.getLast?_concat, List.dropLast_concat]

/-- `set` stores the given value verbatim at the path (no interpolation
happens outside of load time). -/
theorem setWalk_stores_verbatim :
    ∀ (ks : List String) (cfg v cfg' : Value), setWalk cfg ks v = some cfg' →
      lookupPath cfg' ks = some v := by
  intro ks
  induction ks with
  | nil => intro cfg v cfg' h; cases cfg <;> simp [setWalk] at h
  | cons k ks ih =>
    intro cfg v cfg' h
    cases cfg with
    | obj fields =>
      cases ks with
      | nil =>
        simp only [setWalk, Option.some.injEq] at h
        subst h
        simp [lookupPath, assocGet_assocSet_self]
      | cons k' ks' =>
        have hdef : setWalk (Value.obj fields) (k :: k' :: ks') v
            = (setWalk ((assocGet fields k).getD (Value.obj [])) (k' :: ks') v).map
              (fun c => Value.obj (assocSet fields k c)) := rfl
        rw [hdef] at h
        cases hsw : setWalk ((assocGet fields k).getD (Value.obj [])) (k' :: ks') v with
        | none => rw [hsw] at h; simp at h
        | some c =>
          rw [hsw] at h
          simp only [Option.map_some', Option.some.injEq] at h
          subst h
          simp only [lookupPath, assocGet_assocSet_self, Option.some_bind]
          exact ih _ v c hsw
    | str s => simp [setWalk] at h
    | num n => cases ks <;> simp [setWalk] at h
    | bool b => cases ks <;> simp [setWalk] at h
    | null => cases ks <;> simp [setWalk] at h
    | arr l => cases ks <;> simp [setWalk] at h

/-- **C7.** Environment interpolation happens at load time and only
then: (a) a string value of the exact form `${NAME}` (written here as
the character sequence dollar, open-brace, NAME, close-brace) reachable
through nested mappings is replaced by the environment variable `NAME`,
or the empty string when unset; (b) a sequence value is left completely
untouched, so its string elements are never interpolated; (c) `set`
stores its value verbatim, with no interpolation. -/
theorem C7_env_interpolation (env : String → Option String) :
    (∀ (ks : List String) (fields : List (String × Value)) (n : String),
      lookupPath (.obj fields) ks = some (.str ⟨'$' :: '{' :: (n.data ++ ['}'])⟩) →
      lookupPath (processEnvVars env (.obj fields)) ks = some (.str ((env n).getD ""))) ∧
    (∀ (ks : List String) (fields : List (String × Value)) (l : List Value),
      lookupPath (.obj fields) ks = some (.arr l) →
      lookupPath (processEnvVars env (.obj fields)) ks = some (.arr l)) ∧
    (∀ (key_path : String) (cfg v cfg' : Value), configSet cfg key_path v = some cfg' →
      lookupPath cfg' (splitDot key_path) = some v) := by
  refine ⟨?_, ?_, ?_⟩
  · intro ks fields n h
    have := lookupPath_processEnvVars env ks (.obj fields) _ h
    simpa [processEnvVars, interpEnvString_envRef] using this
  · intro ks fields l h
    have := lookupPath_processEnvVars env ks (.obj fields) _ h
    simpa [processEnvVars] using this
  · intro key_path cfg v cfg' h
    exact setWalk_stores_verbatim _ cfg v cfg' h

/-- **C6.** `get(path, D)` returns the stored value when the dotted path
resolves through nested mappings, and returns `D` the moment a key is
absent or an intermediate value is not a mapping: it equals the
specification-side `lookupPath` with default `D`. -/
theorem C6_config_get_default_fallback (cfg : Value) (key_path : String) (d : Value) :
    configGet cfg key_path d = (lookupPath cfg (splitDot key_path)).getD d :=
  getWalk_eq_lookupPath d (splitDot key_path) cfg

/-! ## Embedding of `PluginLoader` (`src/core/plugin_loader.py`) and the
hot-reload watcher (`src/core/server.py`). -/

mutual
/-- Python `==` between configuration values, as used by `plugin_id in
disabled` (element comparison) and by the watcher's
`directory == config_manager.get_plugin_directory(t)`.  All comparisons
the embedded code reaches in the scenarios of the claims are between
strings; Python's numeric cross-type equalities (`True == 1`) are not
modelled. -/
def valueEq : Value → Value → Bool
  | .str a, .str b => a = b
  | .num a, .num b => a = b
  | .bool a, .bool b => a = b
  | .null, .null => true
  | .obj a, .obj b => fieldsEq a b
  | .arr a, .arr b => arrEq a b
  | _, _ => false

def fieldsEq : List (String × Value) → List (String × Value) → Bool
  | [], [] => true
  | (k, v) :: t, (k', v') :: t' => k = k' && valueEq v v' && fieldsEq t t'
  | _, _ => false

def arrEq : List Value → List Value → Bool
  | [], [] => true
  | v :: t, v' :: t' => valueEq v v' && arrEq t t'
  | _, _ => false
end

/-- Python `str.startswith` on the character sequence. -/
def pyStartswith (s pre : String) : Bool := pre.data.isPrefixOf s.data

/-- Python `str.endswith` on the character sequence. -/
def pyEndswith (s suf : String) : Bool := suf.data.isSuffixOf s.data

/-- Python substring membership `needle in hay` for strings. -/
def strContainsSub (hay needle : String) : Bool :=
  hay.data.tails.any (fun t => needle.data.isPrefixOf t)

/-- `filename[:-3]`: strip the three-character extension. -/
def stripExt3 (s : String) : String := ⟨s.data.take (s.data.length - 3)⟩

/-- The discovery filter of `load_plugins_by_type` and `_watch_files`:
`filename.endswith(".py") and not filename.startswith("__")`. -/
def isPluginFile (f : String) : Bool := pyEndswith f ".py" && !(pyStartswith f "__")

/-- `os.path.join(directory, filename)` for POSIX paths. -/
def osPathJoin (d f : String) : String :=
  if pyStartswith f "/" then f
  else if d = "" || pyEndswith d "/" then d ++ f
  else d ++ "/" ++ f

/-- The plugin kinds the loader iterates, in source order
(`src/core/plugin_loader.py` line 37 and passim). -/
def pluginTypes : List String := ["resources", "prompts", "tools", "sampling"]

/-- `ConfigManager.get_plugin_directory` (`src/core/config.py` line
156): the configured directory for a kind, defaulting to
`plugins/<kind>`.  The configured value may be any `Value`; callers that
require a string handle the other shapes. -/
def get_plugin_directory (cfg : Value) (plugin_type : String) : Value :=
  configGet cfg ("plugins.directories." ++ plugin_type) (.str ("plugins/" ++ plugin_type))

/-- `ConfigManager.is_plugin_disabled` (`src/core/config.py` lines
158-169): Python membership `plugin_id in get("plugins.disabled", [])`.
Membership in a sequence compares elements, in a string is substring
search, in a mapping is key lookup; a non-iterable value raises in
Python and is unreachable under the documented schema. -/
def is_plugin_disabled (cfg : Value) (plugin_id : String) : Bool :=
  match configGet cfg "plugins.disabled" (.arr []) with
  | .arr l => l.any (fun v => valueEq (.str plugin_id) v)
  | .str s => strContainsSub s plugin_id
  | .obj fields => fields.any (fun kv => kv.1 = plugin_id)
  | _ => false

/-- What executing a candidate plugin module does, abstracting the
module object of `importlib`: whether `exec_module` raises, whether a
`setup`/`teardown` attribute exists, and whether calling it raises. -/
structure ModuleCode where
  execFails : Bool
  hasSetup : Bool
  setupFails : Bool
  hasTeardown : Bool
  teardownFails : Bool
  deriving DecidableEq

/-- Observable effects of the loader: plugin lifecycle entry-point
invocations and the log lines the source emits. -/
inductive Event where
  | setupCall (pluginId : String)
  | teardownCall (pluginId : String)
  | logDisabledSkip (pluginId : String)
  | logLoadError (pluginId : String)
  | logNoSetup (pluginId : String)
  | logNotLoaded (pluginId : String)
  | logUnloadError (pluginId : String)
  | logReloadError (pluginId : String)
  | logDirMissing (dir : String)
  | logFileCheckError (path : String)
  | logCycleError
  | raised
  | dirScanned (dir : String)
  deriving DecidableEq

/-- The mutable fields of `PluginLoader` (`src/core/plugin_loader.py`
lines 31-33) together with the interpreter's `sys.modules` entries the
loader manipulates.  Python dicts become association lists, the
`loaded_modules` set becomes a duplicate-free list. -/
structure LoaderState where
  loaded_plugins : List (String × ModuleCode)
  plugin_paths : List (String × String)
  loaded_modules : List String
  sys_modules : List (String × ModuleCode)
  deriving DecidableEq

/-- Python `set.add`. -/
def setAdd (l : List String) (x : String) : List String :=
  if x ∈ l then l else l ++ [x]

/-- Python `set.remove` on a duplicate-free list (always guarded by a
membership test in the source). -/
def setRemove (l : List String) (x : String) : List String :=
  l.filter (fun y => y ≠ x)

/-- `PluginLoader._load_plugin_file` (`src/core/plugin_loader.py` lines
70-110).  `fs` maps a file path to the behaviour of the module found
there (`none` models `spec_from_file_location` yielding nothing usable).
The whole body sits in a `try` block: a raising `exec_module` or
`setup` is caught and logged, leaving `loaded_plugins`, `plugin_paths`
and `loaded_modules` untouched; the `sys.modules` entry written before
`exec_module` stays behind.  The registry triple is written only after
`setup` returns. -/
def load_plugin_file (fs : String → Option ModuleCode) (st : LoaderState)
    (plugin_id file_path plugin_type : String) : LoaderState × List Event :=
  let module_name := plugin_type ++ "." ++ plugin_id
  if module_name ∈ st.loaded_modules then (st, [])
  else
    match fs file_path with
    | none => (st, [.logLoadError plugin_id])
    | some code =>
      let st1 := { st with sys_modules := assocSet st.sys_modules module_name code }
      if code.execFails then (st1, [.logLoadError plugin_id])
      else if code.hasSetup then
        if code.setupFails then (st1, [.setupCall plugin_id, .logLoadError plugin_id])
        else
          ({ st1 with
              loaded_plugins := assocSet st1.loaded_plugins plugin_id code,
              plugin_paths := assocSet st1.plugin_paths plugin_id file_path,
              loaded_modules := setAdd st1.loaded_modules module_name },
            [.setupCall plugin_id])
      else (st1, [.logNoSetup plugin_id])

/-- The per-directory loop of `PluginLoader.load_plugins_by_type`
(`src/core/plugin_loader.py` lines 58-68): for each listed file that
looks like a plugin, derive the id, skip it when disabled, otherwise
load it. -/
def scanFiles (cfg : Value) (fs : String → Option ModuleCode)
    (directory plugin_type : String) : LoaderState → List String → LoaderState × List Event
  | st, [] => (st, [])
  | st, filename :: rest =>
    if isPluginFile filename then
      let plugin_id := stripExt3 filename
      if is_plugin_disabled cfg plugin_id then
        let r := scanFiles cfg fs directory plugin_type st rest
        (r.1, .logDisabledSkip plugin_id :: r.2)
      else
        let file_path := osPathJoin directory filename
        let r1 := load_plugin_file fs st plugin_id file_path plugin_type
        let r2 := scanFiles cfg fs directory plugin_type r1.1 rest
        (r2.1, r1.2 ++ r2.2)
    else scanFiles cfg fs directory plugin_type st rest

/-- `PluginLoader.load_plugins_by_type` (`src/core/plugin_loader.py`
lines 42-68).  `listing` maps a directory to its file names, `none`
when the directory does not exist.  A non-string configured directory
makes the source raise out of the unprotected body, marked `raised`. -/
def load_plugins_by_type (cfg : Value) (listing : String → Option (List String))
    (fs : String → Option ModuleCode) (st : LoaderState) (plugin_type : String) :
    LoaderState × List Event :=
  match get_plugin_directory cfg plugin_type with
  | .str directory =>
    match listing directory with
    | none => (st, [.logDirMissing directory])
    | some files => scanFiles cfg fs directory plugin_type st files
  | _ => (st, [.raised])

/-- The kind-resolution loop of `PluginLoader.reload_plugin`
(`src/core/plugin_loader.py` lines 129-133): the first type whose
configured directory is a string prefix of the stored path; a
non-string directory raises (`TypeError` inside `startswith`), which
the caller's `try` catches. -/
def findPluginTypeAux (cfg : Value) (file_path : String) :
    List String → Except Unit (Option String)
  | [] => .ok none
  | t :: ts =>
    match get_plugin_directory cfg t with
    | .str d => if pyStartswith file_path d then .ok (some t) else findPluginTypeAux cfg file_path ts
    | _ => .error ()

def findPluginType (cfg : Value) (file_path : String) : Except Unit (Option String) :=
  findPluginTypeAux cfg file_path pluginTypes

/-- `PluginLoader.reload_plugin` (`src/core/plugin_loader.py` lines
112-157).  Fails early when the id has no record; otherwise resolves
the kind, deletes the module identity and the registry entry, re-runs
`_load_plugin_file`, and returns `true` — the inner load's own failure
handling swallows its errors, so the `true` does not depend on the
re-load succeeding.  No `teardown` is invoked anywhere on this path. -/
def reload_plugin (cfg : Value) (fs : String → Option ModuleCode) (st : LoaderState)
    (plugin_id : String) : LoaderState × Bool × List Event :=
  match assocGet st.loaded_plugins plugin_id, assocGet st.plugin_paths plugin_id with
  | some _, some file_path =>
    (match findPluginType cfg file_path with
     | .error _ => (st, false, [.logReloadError plugin_id])
     | .ok none => (st, false, [.logReloadError plugin_id])
     | .ok (some plugin_type) =>
       let module_name := plugin_type ++ "." ++ plugin_id
       let st1 := { st with
         sys_modules := assocDel st.sys_modules module_name,
         loaded_plugins := assocDel st.loaded_plugins plugin_id,
         loaded_modules := setRemove st.loaded_modules module_name }
       let r := load_plugin_file fs st1 plugin_id file_path plugin_type
       (r.1, true, r.2))
  | _, _ => (st, false, [.logNotLoaded plugin_id])

/-- `PluginLoader.unload_plugin` (`src/core/plugin_loader.py` lines
168-206).  The `teardown` call sits at the top of the `try` block: when
it raises, the handler logs and returns `false` before any of the
deletions below it run, so the registry keeps the entry.  On the
non-raising path the entry, the module identities for every kind, and
the stored path are deleted and `true` is returned. -/
def unload_plugin (st : LoaderState) (plugin_id : String) : LoaderState × Bool × List Event :=
  match assocGet st.loaded_plugins plugin_id with
  | none => (st, false, [.logNotLoaded plugin_id])
  | some module =>
    if module.hasTeardown && module.teardownFails then
      (st, false, [.teardownCall plugin_id, .logUnloadError plugin_id])
    else
      let ev0 := if module.hasTeardown then [Event.teardownCall plugin_id] else []
      let st1 := { st with loaded_plugins := assocDel st.loaded_plugins plugin_id }
      match assocGet st1.plugin_paths plugin_id with
      | none => (st1, false, ev0 ++ [.logUnloadError plugin_id])
      | some _ =>
        let st2 := pluginTypes.foldl (fun s t =>
            let mn := t ++ "." ++ plugin_id
            { s with sys_modules := assocDel s.sys_modules mn,
                     loaded_modules := setRemove s.loaded_modules mn }) st1
        let st3 := { st2 with plugin_paths := assocDel st2.plugin_paths plugin_id }
        (st3, true, ev0)

/-- The local state of `_watch_files` (`src/core/server.py` lines
139-146): `plugin_dirs` is computed once before the `while True` loop
and never reassigned; `file_mtimes` is the dictionary the loop
mutates. -/
structure WatcherState where
  plugin_dirs : List Value
  file_mtimes : List (String × Int)

/-- The initialisation of `_watch_files` before its loop
(`src/core/server.py` lines 140-146). -/
def watcherInit (cfg : Value) : WatcherState :=
  { plugin_dirs := pluginTypes.map (fun t => get_plugin_directory cfg t),
    file_mtimes := [] }

/-- One file's check inside a watcher cycle (`src/core/server.py` lines
154-184): on a new or changed modification time, record it, then reload
an already-loaded id or load a new file after matching the directory
against the current configuration.  A failing `getmtime` is caught by
the per-file handler.  Note: no disabled-list check appears on either
branch. -/
def watchOneFile (cfg : Value) (mtimeOf : String → Option Int)
    (fs : String → Option ModuleCode) (directory : String)
    (acc : List (String × Int) × LoaderState × List Event) (filename : String) :
    List (String × Int) × LoaderState × List Event :=
  let fm := acc.1
  let st := acc.2.1
  let evs := acc.2.2
  if isPluginFile filename then
    let file_path := osPathJoin directory filename
    let plugin_id := stripExt3 filename
    match mtimeOf file_path with
    | none => (fm, st, evs ++ [.logFileCheckError file_path])
    | some mtime =>
      if assocGet fm file_path = some mtime then (fm, st, evs)
      else
        let fm1 := assocSet fm file_path mtime
        if (assocGet st.loaded_plugins plugin_id).isSome then
          let r := reload_plugin cfg fs st plugin_id
          (fm1, r.1, evs ++ r.2.2)
        else
          match pluginTypes.find? (fun t => valueEq (.str directory) (get_plugin_directory cfg t)) with
          | some plugin_type =>
            let r := load_plugin_file fs st plugin_id file_path plugin_type
            (fm1, r.1, evs ++ r.2)
          | none => (fm1, st, evs)
  else acc

/-- One directory's scan inside a watcher cycle: skipped entirely when
it does not exist (`os.path.exists`), otherwise every listed file is
checked. -/
def watchDir (cfg : Value) (listing : String → Option (List String))
    (mtimeOf : String → Option Int) (fs : String → Option ModuleCode) (directory : String)
    (acc : List (String × Int) × LoaderState × List Event) :
    List (String × Int) × LoaderState × List Event :=
  match listing directory with
  | none => acc
  | some files => files.foldl (watchOneFile cfg mtimeOf fs directory) acc

/-- The directory loop of one watcher cycle.  A non-string directory
value raises inside the cycle-level `try`, aborting the remaining
directories of this cycle only. -/
def watchDirs (cfg : Value) (listing : String → Option (List String))
    (mtimeOf : String → Option Int) (fs : String → Option ModuleCode) :
    List Value → (List (String × Int) × LoaderState × List Event) →
    List (String × Int) × LoaderState × List Event
  | [], acc => acc
  | .str d :: rest, acc =>
    let acc1 := watchDir cfg listing mtimeOf fs d (acc.1, acc.2.1, acc.2.2 ++ [.dirScanned d])
    watchDirs cfg listing mtimeOf fs rest acc1
  | _ :: _, acc => (acc.1, acc.2.1, acc.2.2 ++ [.logCycleError])

/-- One full poll cycle of `_watch_files` (`src/core/server.py` lines
148-189), run once per 5-second sleep: iterate the directory list that
was computed at watcher start (`ws.plugin_dirs` — the cycle reads the
current configuration `cfg` only to classify files, never to rebuild
this list) and thread the modification-time index through. -/
def watcherCycle (cfg : Value) (listing : String → Option (List String))
    (mtimeOf : String → Option Int) (fs : String → Option ModuleCode)
    (ws : WatcherState) (st : LoaderState) : WatcherState × LoaderState × List Event :=
  let r := watchDirs cfg listing mtimeOf fs ws.plugin_dirs (ws.file_mtimes, st, [])
  ({ ws with file_mtimes := r.1 }, r.2.1, r.2.2)

/-! ## Basic lemmas about the dict/set operations -/

theorem assocGet_assocSet_other (l : List (String × α)) (k k' : String) (v : α)
    (h : k' ≠ k) : assocGet (assocSet l k v) k' = assocGet l k' := by
  have hkk : ¬(k = k') := fun hh => h hh.symm
  induction l with
  | nil => simp [assocGet, assocSet, hkk]
  | cons hd t ih =>
    obtain ⟨k'', v''⟩ := hd
    by_cases hk : k'' = k
    · subst hk
      simp [assocGet, assocSet, hkk]
    · by_cases hk2 : k'' = k' <;> simp [assocGet, assocSet, hk, hk2, ih, hkk, h]

theorem assocGet_eq_none_of_not_mem (l : List (String × α)) (k : String)
    (h : k ∉ l.map Prod.fst) : assocGet l k = none := by
  induction l with
  | nil => rfl
  | cons hd t ih =>
    obtain ⟨k', v'⟩ := hd
    simp only [List.map_cons, List.mem_cons] at h
    push_neg at h
    have hne : ¬(k' = k) := fun hh => h.1 hh.symm
    simp only [assocGet, if_neg hne]
    exact ih h.2

theorem assocGet_assocDel_self (l : List (String × α)) (k : String)
    (hnd : (l.map Prod.fst).Nodup) : assocGet (assocDel l k) k = none := by
  induction l with
  | nil => rfl
  | cons hd t ih =>
    obtain ⟨k', v'⟩ := hd
    simp only [List.map_cons, List.nodup_cons] at hnd
    by_cases hk : k' = k
    · subst hk
      simp only [assocDel, if_pos rfl]
      exact assocGet_eq_none_of_not_mem t k' hnd.1
    · simp only [assocDel, if_neg hk, assocGet, if_neg hk]
      exact ih hnd.2

theorem mem_setAdd_self (l : List String) (x : String) : x ∈ setAdd l x := by
  by_cases hc : x ∈ l <;> simp [setAdd, hc]

theorem mem_setAdd_iff (l : List String) (x y : String) (h : y ≠ x) :
    y ∈ setAdd l x ↔ y ∈ l := by
  by_cases hc : x ∈ l <;> simp [setAdd, hc, h]

theorem not_mem_setRemove_self (l : List String) (x : String) : x ∉ setRemove l x := by
  simp [setRemove]

/-! ## Case analysis of `_load_plugin_file` -/

/-- A single `_load_plugin_file` call either leaves the registry triple
unchanged (skip, unresolvable module, failing `exec_module` or `setup`,
missing `setup`) or registers the module found at the path. -/
theorem load_plugin_file_state (fs : String → Option ModuleCode) (st : LoaderState)
    (i fp t : String) :
    ((load_plugin_file fs st i fp t).1.loaded_plugins = st.loaded_plugins ∧
     (load_plugin_file fs st i fp t).1.plugin_paths = st.plugin_paths ∧
     (load_plugin_file fs st i fp t).1.loaded_modules = st.loaded_modules) ∨
    (∃ code, fs fp = some code ∧
     (load_plugin_file fs st i fp t).1.loaded_plugins = assocSet st.loaded_plugins i code ∧
     (load_plugin_file fs st i fp t).1.plugin_paths = assocSet st.plugin_paths i fp ∧
     (load_plugin_file fs st i fp t).1.loaded_modules = setAdd st.loaded_modules (t ++ "." ++ i)) := by
  by_cases hc : (t ++ "." ++ i) ∈ st.loaded_modules
  · exact Or.inl (by simp [load_plugin_file, hc])
  · cases hfs : fs fp with
    | none => exact Or.inl (by simp [load_plugin_file, hc, hfs])
    | some code =>
      cases hexec : code.execFails with
      | true => exact Or.inl (by simp [load_plugin_file, hc, hfs, hexec])
      | false =>
        cases hset : code.hasSetup with
        | false => exact Or.inl (by simp [load_plugin_file, hc, hfs, hexec, hset])
        | true =>
          cases hok : code.setupFails with
          | true => exact Or.inl (by simp [load_plugin_file, hc, hfs, hexec, hset, hok])
          | false =>
            exact Or.inr ⟨code, rfl, by simp [load_plugin_file, hc, hfs, hexec, hset, hok]⟩

/-- Every event emitted by `_load_plugin_file` names the id it was
called with. -/
theorem load_plugin_file_events (fs : String → Option ModuleCode) (st : LoaderState)
    (i fp t : String) (e : Event) (he : e ∈ (load_plugin_file fs st i fp t).2) :
    e = .setupCall i ∨ e = .logLoadError i ∨ e = .logNoSetup i := by
  by_cases hc : (t ++ "." ++ i) ∈ st.loaded_modules
  · simp [load_plugin_file, hc] at he
  · cases hfs : fs fp with
    | none => simp [load_plugin_file, hc, hfs] at he; simp [he]
    | some code =>
      cases hexec : code.execFails with
      | true => simp [load_plugin_file, hc, hfs, hexec] at he; simp [he]
      | false =>
        cases hset : code.hasSetup with
        | false => simp [load_plugin_file, hc, hfs, hexec, hset] at he; simp [he]
        | true =>
          cases hok : code.setupFails with
          | true =>
            simp [load_plugin_file, hc, hfs, hexec, hset, hok] at he
            rcases he with rfl | rfl
            · simp
            · simp
          | false => simp [load_plugin_file, hc, hfs, hexec, hset, hok] at he; simp [he]

/-- The success path of `_load_plugin_file`, in closed form. -/
theorem load_plugin_file_success (fs : String → Option ModuleCode) (st : LoaderState)
    (i fp t : String) (code : ModuleCode)
    (hc : (t ++ "." ++ i) ∉ st.loaded_modules)
    (hfs : fs fp = some code) (hexec : code.execFails = false)
    (hset : code.hasSetup = true) (hok : code.setupFails = false) :
    load_plugin_file fs st i fp t =
      ({ loaded_plugins := assocSet st.loaded_plugins i code,
         plugin_paths := assocSet st.plugin_paths i fp,
         loaded_modules := setAdd st.loaded_modules (t ++ "." ++ i),
         sys_modules := assocSet st.sys_modules (t ++ "." ++ i) code },
       [.setupCall i]) := by
  simp [load_plugin_file, hc, hfs, hexec, hset, hok]

/-! ## Shared concrete scenario material -/

/-- A loader with nothing loaded yet. -/
def emptyLoader : LoaderState := ⟨[], [], [], []⟩

/-- A well-behaved module: `setup` and `teardown` both present and not
raising. -/
def okModule : ModuleCode := ⟨false, true, false, true, false⟩

/-- A module whose `setup` raises. -/
def failSetupModule : ModuleCode := ⟨false, true, true, false, false⟩

/-- A module whose `teardown` raises. -/
def failTeardownModule : ModuleCode := ⟨false, true, false, true, true⟩

/-- A filesystem with one good plugin file under the default tools
directory. -/
def fsOk : String → Option ModuleCode :=
  fun p => if p = "plugins/tools/p.py" then some okModule else none

/-- The same path now holding a module whose `setup` raises. -/
def fsFailSetup : String → Option ModuleCode :=
  fun p => if p = "plugins/tools/p.py" then some failSetupModule else none

/-- The loader after a successful load of plugin `p` of kind tools. -/
def loadedPState : LoaderState :=
  ⟨[("p", okModule)], [("p", "plugins/tools/p.py")], ["tools.p"], [("tools.p", okModule)]⟩

/-- A loaded plugin whose module's `teardown` raises. -/
def failTeardownState : LoaderState :=
  ⟨[("p", failTeardownModule)], [("p", "plugins/tools/p.py")], ["tools.p"],
   [("tools.p", failTeardownModule)]⟩

/-! ## C2: loading twice with the same id and kind is a no-op -/

/-- **C2.** After a successful first load of a plugin id under a kind,
a second `_load_plugin_file` call with the same id and kind — whatever
path or filesystem content it is given — returns the state unchanged
and emits no event, in particular no second `setup` call: the module
name `kind.id` is already in `loaded_modules`, so the call returns at
the idempotence guard. -/
theorem C2_second_load_is_noop (fs fs' : String → Option ModuleCode) (st : LoaderState)
    (pid fp fp' ptype : String) (code : ModuleCode)
    (hmn : (ptype ++ "." ++ pid) ∉ st.loaded_modules)
    (hfs : fs fp = some code) (hexec : code.execFails = false)
    (hset : code.hasSetup = true) (hok : code.setupFails = false) :
    load_plugin_file fs' (load_plugin_file fs st pid fp ptype).1 pid fp' ptype
      = ((load_plugin_file fs st pid fp ptype).1, []) := by
  rw [load_plugin_file_success fs st pid fp ptype code hmn hfs hexec hset hok]
  simp [load_plugin_file, mem_setAdd_self]

theorem C2_witness :
    load_plugin_file fsOk (load_plugin_file fsOk emptyLoader "p" "plugins/tools/p.py" "tools").1
        "p" "plugins/tools/other_location.py" "tools"
      = ((load_plugin_file fsOk emptyLoader "p" "plugins/tools/p.py" "tools").1, []) :=
  C2_second_load_is_noop fsOk fsOk emptyLoader "p" "plugins/tools/p.py"
    "plugins/tools/other_location.py" "tools" okModule (by decide) (by decide) rfl rfl rfl

/-! ## C5: a raising `setup` leaves the registry untouched -/

/-- **C5.** When the module's `setup` raises, the exception is caught
and logged (the emitted events are exactly the `setup` invocation
followed by the load-error log line) and none of `loaded_plugins`,
`plugin_paths`, `loaded_modules` is mutated: the registry entry is only
ever inserted after `setup` returns, so no half-initialized entry is
observable. -/
theorem C5_failed_setup_leaves_registry_untouched (fs : String → Option ModuleCode)
    (st : LoaderState) (pid fp ptype : String) (code : ModuleCode)
    (hmn : (ptype ++ "." ++ pid) ∉ st.loaded_modules)
    (hfs : fs fp = some code) (hexec : code.execFails = false)
    (hset : code.hasSetup = true) (hfail : code.setupFails = true) :
    (load_plugin_file fs st pid fp ptype).1.loaded_plugins = st.loaded_plugins ∧
    (load_plugin_file fs st pid fp ptype).1.plugin_paths = st.plugin_paths ∧
    (load_plugin_file fs st pid fp ptype).1.loaded_modules = st.loaded_modules ∧
    (load_plugin_file fs st pid fp ptype).2 = [.setupCall pid, .logLoadError pid] := by
  simp [load_plugin_file, hmn, hfs, hexec, hset, hfail]

theorem C5_witness :
    (load_plugin_file fsFailSetup emptyLoader "p" "plugins/tools/p.py" "tools").1.loaded_plugins
        = emptyLoader.loaded_plugins ∧
    (load_plugin_file fsFailSetup emptyLoader "p" "plugins/tools/p.py" "tools").1.plugin_paths
        = emptyLoader.plugin_paths ∧
    (load_plugin_file fsFailSetup emptyLoader "p" "plugins/tools/p.py" "tools").1.loaded_modules
        = emptyLoader.loaded_modules ∧
    (load_plugin_file fsFailSetup emptyLoader "p" "plugins/tools/p.py" "tools").2
        = [.setupCall "p", .logLoadError "p"] :=
  C5_failed_setup_leaves_registry_untouched fsFailSetup emptyLoader "p" "plugins/tools/p.py"
    "tools" failSetupModule (by decide) (by decide) rfl rfl rfl

/-! ## C9: reloading a never-loaded id -/

/-- **C9.** `reload_plugin` on an id with no current record returns the
`NotLoaded` failure (`false`) with only a warning log, without raising,
and returns the loader state completely unchanged. -/
theorem C9_reload_not_loaded (cfg : Value) (fs : String → Option ModuleCode)
    (st : LoaderState) (pid : String) (h : assocGet st.loaded_plugins pid = none) :
    reload_plugin cfg fs st pid = (st, false, [.logNotLoaded pid]) := by
  unfold reload_plugin
  rw [h]

theorem C9_witness :
    reload_plugin (.obj []) fsOk emptyLoader "q" = (emptyLoader, false, [.logNotLoaded "q"]) :=
  C9_reload_not_loaded (.obj []) fsOk emptyLoader "q" rfl

/-! ## C10: reload reports success even when the inner re-load fails -/

/-- **C10.** `reload_plugin` on a loaded plugin whose file now holds a
module with a raising `setup` still returns `true`, while the id is
absent from `loaded_plugins` afterwards: the inner `_load_plugin_file`
swallows its own failure, so the boolean result does not reflect it. -/
theorem C10_reload_true_after_failed_inner_load (cfg : Value)
    (fs : String → Option ModuleCode) (st : LoaderState) (pid fp ptype : String)
    (code : ModuleCode) (hnd : (st.loaded_plugins.map Prod.fst).Nodup)
    (hl : (assocGet st.loaded_plugins pid).isSome = true)
    (hp : assocGet st.plugin_paths pid = some fp)
    (ht : findPluginType cfg fp = .ok (some ptype))
    (hfs : fs fp = some code) (hexec : code.execFails = false)
    (hset : code.hasSetup = true) (hfail : code.setupFails = true) :
    (reload_plugin cfg fs st pid).2.1 = true ∧
    assocGet (reload_plugin cfg fs st pid).1.loaded_plugins pid = none := by
  obtain ⟨m, hm⟩ := Option.isSome_iff_exists.mp hl
  unfold reload_plugin
  rw [hm, hp]
  simp only [ht]
  simp [load_plugin_file, not_mem_setRemove_self, hfs, hexec, hset, hfail,
    assocGet_assocDel_self st.loaded_plugins pid hnd, setRemove]

theorem C10_witness :
    (reload_plugin (.obj []) fsFailSetup loadedPState "p").2.1 = true ∧
    assocGet (reload_plugin (.obj []) fsFailSetup loadedPState "p").1.loaded_plugins "p" = none :=
  C10_reload_true_after_failed_inner_load (.obj []) fsFailSetup loadedPState "p"
    "plugins/tools/p.py" "tools" failSetupModule (by decide) (by decide) (by decide) rfl
    (by decide) rfl rfl rfl

/-! ## C3: a raising `teardown` during unload -/

/-- **C3 counterexample.** A loaded plugin whose `teardown` raises:
`unload_plugin` logs the exception and returns `false`, and the
registry entry and module identity are still present afterwards — the
claim that the exception does not block removal is false on this
input.  In the source the `del` statements sit below the `teardown()`
call inside the same `try`, so the handler is reached before any of
them run. -/
theorem C3_counterexample :
    unload_plugin failTeardownState "p"
      = (failTeardownState, false, [.teardownCall "p", .logUnloadError "p"]) ∧
    assocGet failTeardownState.loaded_plugins "p" = some failTeardownModule ∧
    failTeardownState.loaded_modules.contains "tools.p" = true := by
  refine ⟨by decide, by decide, by decide⟩

/-- **C3 (amended).** When a loaded plugin's `teardown` raises during
`unload_plugin`, the exception is caught and logged, but it blocks
removal: the call returns `false` and the loader state — registry
entry and module identity included — is completely unchanged. -/
theorem C3_teardown_failure_blocks_removal (st : LoaderState) (pid : String)
    (m : ModuleCode) (hm : assocGet st.loaded_plugins pid = some m)
    (ht : m.hasTeardown = true) (hf : m.teardownFails = true) :
    unload_plugin st pid = (st, false, [.teardownCall pid, .logUnloadError pid]) := by
  simp [unload_plugin, hm, ht, hf]

theorem C3_witness :
    unload_plugin failTeardownState "p"
      = (failTeardownState, false, [.teardownCall "p", .logUnloadError "p"]) :=
  C3_teardown_failure_blocks_removal failTeardownState "p" failTeardownModule
    (by decide) rfl rfl

/-! ## C4: reload does not run the outgoing module's teardown -/

/-- **C4 counterexample.** A loaded plugin whose module defines a
(non-raising) `teardown`: `reload_plugin` emits exactly one event, the
new module's `setup` call — the outgoing module's `teardown` is never
invoked, so the claim that reload runs teardown before the new setup is
false on this input. -/
theorem C4_counterexample :
    okModule.hasTeardown = true ∧
    (reload_plugin (.obj []) fsOk loadedPState "p").2.2 = [.setupCall "p"] ∧
    Event.teardownCall "p" ∉ (reload_plugin (.obj []) fsOk loadedPState "p").2.2 := by
  refine ⟨rfl, by decide, by decide⟩

/-- **C4 (amended).** `reload_plugin` never invokes any `teardown`: no
reload call, on any state, emits a `teardown` event.  On a loaded
plugin whose file re-resolves to a working module it replaces the
record in place — the old entry is deleted, the new module's `setup`
runs as the only lifecycle event, and the registry maps the id to the
new module afterwards. -/
theorem C4_reload_replaces_without_teardown :
    (∀ (cfg : Value) (fs : String → Option ModuleCode) (st : LoaderState) (pid i : String),
      Event.teardownCall i ∉ (reload_plugin cfg fs st pid).2.2) ∧
    (∀ (cfg : Value) (fs : String → Option ModuleCode) (st : LoaderState)
      (pid fp ptype : String) (code : ModuleCode),
      (assocGet st.loaded_plugins pid).isSome = true →
      assocGet st.plugin_paths pid = some fp →
      findPluginType cfg fp = .ok (some ptype) →
      fs fp = some code → code.execFails = false →
      code.hasSetup = true → code.setupFails = false →
      (reload_plugin cfg fs st pid).2.2 = [.setupCall pid] ∧
      assocGet (reload_plugin cfg fs st pid).1.loaded_plugins pid = some code ∧
      (reload_plugin cfg fs st pid).2.1 = true) := by
  constructor
  · intro cfg fs st pid i
    unfold reload_plugin
    cases hl : assocGet st.loaded_plugins pid with
    | none => simp
    | some m =>
      cases hp : assocGet st.plugin_paths pid with
      | none => simp
      | some fp =>
        cases ht : findPluginType cfg fp with
        | error u => simp only [ht]; simp
        | ok o =>
          cases o with
          | none => simp only [ht]; simp
          | some ptype =>
            simp only [ht]
            intro he
            rcases load_plugin_file_events _ _ _ _ _ _ he with h | h | h <;> simp at h
  · intro cfg fs st pid fp ptype code hl hp ht hfs hexec hset hok
    obtain ⟨m, hm⟩ := Option.isSome_iff_exists.mp hl
    unfold reload_plugin
    rw [hm, hp]
    simp only [ht]
    rw [load_plugin_file_success fs _ pid fp ptype code (not_mem_setRemove_self _ _)
      hfs hexec hset hok]
    simp [assocGet_assocSet_self]

/-! ## C7 witness material -/

/-- An environment defining only `FOO=bar`. -/
def envFoo : String → Option String := fun n => if n = "FOO" then some "bar" else none

/-- A config with a `${FOO}` reference as a mapping value under `key`
and the same string as a sequence element under `seq`. -/
def cfgFoo : List (String × Value) :=
  [("key", .str ⟨'$' :: '{' :: ("FOO".data ++ ['}'])⟩),
   ("seq", .arr [.str ⟨'$' :: '{' :: ("FOO".data ++ ['}'])⟩])]

theorem C7_witness :
    lookupPath (processEnvVars envFoo (.obj cfgFoo)) ["key"] = some (.str "bar") ∧
    lookupPath (processEnvVars envFoo (.obj cfgFoo)) ["seq"]
      = some (.arr [.str ⟨'$' :: '{' :: ("FOO".data ++ ['}'])⟩]) ∧
    lookupPath (.obj [("a", .obj [("b", .str "x")])]) (splitDot "a.b") = some (.str "x") :=
  ⟨((C7_env_interpolation envFoo).1 ["key"] cfgFoo "FOO" rfl).trans rfl,
   (C7_env_interpolation envFoo).2.1 ["seq"] cfgFoo _ rfl,
   (C7_env_interpolation envFoo).2.2 "a.b" (.obj []) (.str "x")
     (.obj [("a", .obj [("b", .str "x")])]) rfl⟩

/-! ## String-level facts about plugin file names -/

theorem pyEndswith_append_py (pid : String) : pyEndswith (pid ++ ".py") ".py" = true := by
  unfold pyEndswith
  rw [List.isSuffixOf_iff_suffix, String.data_append]
  exact List.suffix_append pid.data ".py".data

theorem pyStartswith_append_py (pid : String) :
    pyStartswith (pid ++ ".py") "__" = pyStartswith pid "__" := by
  unfold pyStartswith
  rw [String.data_append]
  cases hd : pid.data with
  | nil => rfl
  | cons c cs =>
    cases cs with
    | nil => simp [List.isPrefixOf]
    | cons c2 cs2 => simp [List.isPrefixOf]

theorem stripExt3_append_py (pid : String) : stripExt3 (pid ++ ".py") = pid := by
  unfold stripExt3
  rw [String.data_append]
  have h1 : (pid.data ++ ".py".data).length - 3 = pid.data.length := by simp
  rw [h1, List.take_left]

theorem isPluginFile_append_py (pid : String) (hu : pyStartswith pid "__" = false) :
    isPluginFile (pid ++ ".py") = true := by
  simp [isPluginFile, pyEndswith_append_py, pyStartswith_append_py, hu]

/-- A file name ending in `.py` is its stripped id with `.py` appended. -/
theorem eq_stripExt3_append_py (f : String) (hend : pyEndswith f ".py" = true) :
    f = stripExt3 f ++ ".py" := by
  unfold pyEndswith at hend
  rw [List.isSuffixOf_iff_suffix] at hend
  obtain ⟨pre, hpre⟩ := hend
  have hdata : f.data = f.data.take (f.data.length - 3) ++ ".py".data := by
    conv_lhs => rw [← hpre]
    rw [← hpre]
    simp [List.take_left]
  have h2 : f.data = (String.mk (f.data.take (f.data.length - 3)) ++ ".py").data := by
    rw [String.data_append]
    exact hdata
  exact congrArg String.mk h2

theorem modName_inj (t a b : String) (h : t ++ "." ++ a = t ++ "." ++ b) : a = b := by
  have hd := congrArg String.data h
  rw [String.data_append, String.data_append, String.data_append, String.data_append] at hd
  exact congrArg String.mk (List.append_cancel_left hd)

theorem C4_witness :
    (reload_plugin (.obj []) fsOk loadedPState "p").2.2 = [.setupCall "p"] ∧
    assocGet (reload_plugin (.obj []) fsOk loadedPState "p").1.loaded_plugins "p"
      = some okModule ∧
    (reload_plugin (.obj []) fsOk loadedPState "p").2.1 = true :=
  C4_reload_replaces_without_teardown.2 (.obj []) fsOk loadedPState "p"
    "plugins/tools/p.py" "tools" okModule (by decide) (by decide) rfl rfl rfl rfl rfl

/-! ## C1: the disabled list across the load paths -/

theorem load_plugin_file_get_other (fs : String → Option ModuleCode) (st : LoaderState)
    (i fp t q : String) (h : q ≠ i) :
    assocGet (load_plugin_file fs st i fp t).1.loaded_plugins q
      = assocGet st.loaded_plugins q := by
  rcases load_plugin_file_state fs st i fp t with ⟨h1, _, _⟩ | ⟨code, _, h1, _, _⟩
  · rw [h1]
  · rw [h1, assocGet_assocSet_other _ _ _ _ h]

theorem load_plugin_file_isSome (fs : String → Option ModuleCode) (st : LoaderState)
    (i fp t q : String) (h : (assocGet st.loaded_plugins q).isSome = true) :
    (assocGet (load_plugin_file fs st i fp t).1.loaded_plugins q).isSome = true := by
  rcases load_plugin_file_state fs st i fp t with ⟨h1, _, _⟩ | ⟨code, _, h1, _, _⟩
  · rw [h1]; exact h
  · rw [h1]
    by_cases hq : q = i
    · subst hq; rw [assocGet_assocSet_self]; rfl
    · rw [assocGet_assocSet_other _ _ _ _ hq]; exact h

theorem load_plugin_file_not_mem_other (fs : String → Option ModuleCode) (st : LoaderState)
    (i fp t mn : String) (hne : mn ≠ t ++ "." ++ i) (h : mn ∉ st.loaded_modules) :
    mn ∉ (load_plugin_file fs st i fp t).1.loaded_modules := by
  rcases load_plugin_file_state fs st i fp t with ⟨_, _, h3⟩ | ⟨code, _, _, _, h3⟩
  · rw [h3]; exact h
  · rw [h3, mem_setAdd_iff _ _ _ hne]; exact h

theorem scanFiles_nil (cfg : Value) (fs : String → Option ModuleCode)
    (d ptype : String) (st : LoaderState) : scanFiles cfg fs d ptype st [] = (st, []) := rfl

theorem scanFiles_cons_other (cfg : Value) (fs : String → Option ModuleCode)
    (d ptype f : String) (rest : List String) (st : LoaderState)
    (hf : isPluginFile f = false) :
    scanFiles cfg fs d ptype st (f :: rest) = scanFiles cfg fs d ptype st rest := by
  simp [scanFiles, hf]

theorem scanFiles_cons_skip (cfg : Value) (fs : String → Option ModuleCode)
    (d ptype f : String) (rest : List String) (st : LoaderState)
    (hf : isPluginFile f = true) (hdd : is_plugin_disabled cfg (stripExt3 f) = true) :
    scanFiles cfg fs d ptype st (f :: rest) =
      ((scanFiles cfg fs d ptype st rest).1,
       .logDisabledSkip (stripExt3 f) :: (scanFiles cfg fs d ptype st rest).2) := by
  simp [scanFiles, hf, hdd]

theorem scanFiles_cons_load (cfg : Value) (fs : String → Option ModuleCode)
    (d ptype f : String) (rest : List String) (st : LoaderState)
    (hf : isPluginFile f = true) (hdd : is_plugin_disabled cfg (stripExt3 f) = false) :
    scanFiles cfg fs d ptype st (f :: rest) =
      ((scanFiles cfg fs d ptype
          (load_plugin_file fs st (stripExt3 f) (osPathJoin d f) ptype).1 rest).1,
       (load_plugin_file fs st (stripExt3 f) (osPathJoin d f) ptype).2 ++
       (scanFiles cfg fs d ptype
          (load_plugin_file fs st (stripExt3 f) (osPathJoin d f) ptype).1 rest).2) := by
  simp [scanFiles, hf, hdd]

/-- The startup/rescan path skips a disabled id: per-directory scan
emits no `setup` call for it and leaves its registry slot untouched. -/
theorem scanFiles_disabled (cfg : Value) (fs : String → Option ModuleCode)
    (d ptype pid : String) (hdis : is_plugin_disabled cfg pid = true) :
    ∀ (files : List String) (st : LoaderState),
      Event.setupCall pid ∉ (scanFiles cfg fs d ptype st files).2 ∧
      assocGet (scanFiles cfg fs d ptype st files).1.loaded_plugins pid
        = assocGet st.loaded_plugins pid := by
  intro files
  induction files with
  | nil => intro st; simp [scanFiles_nil]
  | cons f rest ih =>
    intro st
    cases hf : isPluginFile f with
    | false => rw [scanFiles_cons_other cfg fs d ptype f rest st hf]; exact ih st
    | true =>
      by_cases hdd : is_plugin_disabled cfg (stripExt3 f) = true
      · rw [scanFiles_cons_skip cfg fs d ptype f rest st hf hdd]
        refine ⟨?_, (ih st).2⟩
        intro hmem
        rcases List.mem_cons.mp hmem with hh | hh
        · cases hh
        · exact (ih st).1 hh
      · have hne : stripExt3 f ≠ pid := by
          intro hh
          rw [hh] at hdd
          exact hdd hdis
        have hdd' : is_plugin_disabled cfg (stripExt3 f) = false := by
          simpa using hdd
        rw [scanFiles_cons_load cfg fs d ptype f rest st hf hdd']
        constructor
        · intro hmem
          rcases List.mem_append.mp hmem with hh | hh
          · rcases load_plugin_file_events _ _ _ _ _ _ hh with h | h | h
            · simp only [Event.setupCall.injEq] at h
              exact hne h.symm
            · simp at h
            · simp at h
          · exact (ih _).1 hh
        · rw [(ih _).2, load_plugin_file_get_other _ _ _ _ _ _ (fun hh => hne hh.symm)]

/-- Once a plugin id is registered, the rest of a scan keeps it
registered. -/
theorem scanFiles_keeps_isSome (cfg : Value) (fs : String → Option ModuleCode)
    (d ptype pid : String) :
    ∀ (files : List String) (st : LoaderState),
      (assocGet st.loaded_plugins pid).isSome = true →
      (assocGet (scanFiles cfg fs d ptype st files).1.loaded_plugins pid).isSome = true := by
  intro files
  induction files with
  | nil => intro st h; simpa [scanFiles_nil] using h
  | cons f rest ih =>
    intro st h
    cases hf : isPluginFile f with
    | false => rw [scanFiles_cons_other cfg fs d ptype f rest st hf]; exact ih st h
    | true =>
      by_cases hdd : is_plugin_disabled cfg (stripExt3 f) = true
      · rw [scanFiles_cons_skip cfg fs d ptype f rest st hf hdd]
        exact ih st h
      · have hdd' : is_plugin_disabled cfg (stripExt3 f) = false := by simpa using hdd
        rw [scanFiles_cons_load cfg fs d ptype f rest st hf hdd']
        exact ih _ (load_plugin_file_isSome _ _ _ _ _ _ h)

/-- A non-disabled plugin whose file is in the listing and resolves to
a working module ends up registered after the scan. -/
theorem scanFiles_loads (cfg : Value) (fs : String → Option ModuleCode)
    (d ptype pid : String) (code : ModuleCode)
    (hdis : is_plugin_disabled cfg pid = false)
    (hfs : fs (osPathJoin d (pid ++ ".py")) = some code)
    (hexec : code.execFails = false) (hset : code.hasSetup = true)
    (hok : code.setupFails = false) (hu : pyStartswith pid "__" = false) :
    ∀ (files : List String) (st : LoaderState), (pid ++ ".py") ∈ files →
      ((assocGet st.loaded_plugins pid).isSome = true ∨
        (ptype ++ "." ++ pid) ∉ st.loaded_modules) →
      (assocGet (scanFiles cfg fs d ptype st files).1.loaded_plugins pid).isSome = true := by
  intro files
  induction files with
  | nil => intro st h; simp at h
  | cons f rest ih =>
    intro st hmem hinv
    by_cases hfpid : f = pid ++ ".py"
    · subst hfpid
      have hpf : isPluginFile (pid ++ ".py") = true := isPluginFile_append_py pid hu
      have hstrip : stripExt3 (pid ++ ".py") = pid := stripExt3_append_py pid
      have hdd' : is_plugin_disabled cfg (stripExt3 (pid ++ ".py")) = false := by
        rw [hstrip]; exact hdis
      rw [scanFiles_cons_load cfg fs d ptype (pid ++ ".py") rest st hpf hdd', hstrip]
      rcases hinv with hsome | hnotmem
      · exact scanFiles_keeps_isSome _ _ _ _ _ rest _
          (load_plugin_file_isSome _ _ _ _ _ _ hsome)
      · apply scanFiles_keeps_isSome
        rw [load_plugin_file_success fs st pid _ ptype code hnotmem hfs hexec hset hok]
        simp [assocGet_assocSet_self]
    · have hmem' : (pid ++ ".py") ∈ rest := by
        rcases List.mem_cons.mp hmem with hh | hh
        · exact absurd hh.symm hfpid
        · exact hh
      cases hf : isPluginFile f with
      | false =>
        rw [scanFiles_cons_other cfg fs d ptype f rest st hf]
        exact ih st hmem' hinv
      | true =>
        have hend : pyEndswith f ".py" = true := by
          simp only [isPluginFile, Bool.and_eq_true] at hf
          exact hf.1
        have hne : stripExt3 f ≠ pid := by
          intro hh
          apply hfpid
          rw [eq_stripExt3_append_py f hend, hh]
        by_cases hdd : is_plugin_disabled cfg (stripExt3 f) = true
        · rw [scanFiles_cons_skip cfg fs d ptype f rest st hf hdd]
          exact ih st hmem' hinv
        · have hdd' : is_plugin_disabled cfg (stripExt3 f) = false := by simpa using hdd
          rw [scanFiles_cons_load cfg fs d ptype f rest st hf hdd']
          apply ih _ hmem'
          rcases hinv with hsome | hnot
          · exact Or.inl (load_plugin_file_isSome _ _ _ _ _ _ hsome)
          · refine Or.inr (load_plugin_file_not_mem_other _ _ _ _ _ _ ?_ hnot)
            intro hh
            exact hne (modName_inj _ _ _ hh).symm

/-- A config disabling plugin `p`, with the tools directory at `pt`. -/
def c1cfg : Value :=
  .obj [("plugins", .obj [("disabled", .arr [.str "p"]),
                          ("directories", .obj [("tools", .str "pt")])])]

/-- The same config with an empty disabled list. -/
def c1cfgEnabled : Value :=
  .obj [("plugins", .obj [("disabled", .arr []),
                          ("directories", .obj [("tools", .str "pt")])])]

/-- Directory `pt` holds the single plugin file `p.py`. -/
def c1listing : String → Option (List String) :=
  fun d => if d = "pt" then some ["p.py"] else none

def c1mtime : String → Option Int := fun p => if p = "pt/p.py" then some 1 else none

def c1fs : String → Option ModuleCode := fun p => if p = "pt/p.py" then some okModule else none

/-- **C1 counterexample.** Plugin id `p` is on the disabled list and a
valid plugin file for it exists.  The directory scan does skip it, but
one hot-reload watcher cycle — whose new-file branch calls
`_load_plugin_file` directly, without any disabled check — registers it
and invokes its `setup`: the claim that no load path ever loads a
disabled plugin is false on this input. -/
theorem C1_counterexample :
    is_plugin_disabled c1cfg "p" = true ∧
    (load_plugins_by_type c1cfg c1listing c1fs emptyLoader "tools").1 = emptyLoader ∧
    Event.setupCall "p" ∈
      (watcherCycle c1cfg c1listing c1mtime c1fs (watcherInit c1cfg) emptyLoader).2.2 ∧
    assocGet (watcherCycle c1cfg c1listing c1mtime c1fs (watcherInit c1cfg)
        emptyLoader).2.1.loaded_plugins "p" = some okModule := by
  refine ⟨by decide, by decide, by decide, by decide⟩

/-- **C1 (amended).** The disabled list is enforced by the directory
scan only: (a) a scan never invokes `setup` for a disabled id and never
changes its registry slot; (b) once the id is no longer disabled, the
next scan that sees its valid file registers it.  (The hot-reload
watcher, by contrast, performs no disabled check — see the
counterexample.) -/
theorem C1_disabled_enforced_on_scan_only :
    (∀ (cfg : Value) (listing : String → Option (List String))
       (fs : String → Option ModuleCode) (st : LoaderState) (ptype pid : String),
       is_plugin_disabled cfg pid = true →
       Event.setupCall pid ∉ (load_plugins_by_type cfg listing fs st ptype).2 ∧
       assocGet (load_plugins_by_type cfg listing fs st ptype).1.loaded_plugins pid
         = assocGet st.loaded_plugins pid) ∧
    (∀ (cfg : Value) (listing : String → Option (List String))
       (fs : String → Option ModuleCode) (st : LoaderState)
       (ptype pid d : String) (files : List String) (code : ModuleCode),
       get_plugin_directory cfg ptype = .str d →
       listing d = some files →
       (pid ++ ".py") ∈ files →
       is_plugin_disabled cfg pid = false →
       fs (osPathJoin d (pid ++ ".py")) = some code →
       code.execFails = false → code.hasSetup = true → code.setupFails = false →
       pyStartswith pid "__" = false →
       (ptype ++ "." ++ pid) ∉ st.loaded_modules →
       (assocGet (load_plugins_by_type cfg listing fs st ptype).1.loaded_plugins
         pid).isSome = true) := by
  constructor
  · intro cfg listing fs st ptype pid hdis
    unfold load_plugins_by_type
    cases hgd : get_plugin_directory cfg ptype with
    | str dd =>
      cases hl : listing dd with
      | none => simp only [hl]; simp
      | some files =>
        simp only [hl]
        exact scanFiles_disabled cfg fs dd ptype pid hdis files st
    | num n => simp
    | bool b => simp
    | null => simp
    | obj o => simp
    | arr a => simp
  · intro cfg listing fs st ptype pid d files code hgd hl hmem hdis hfs hexec hset hok hu hnm
    unfold load_plugins_by_type
    rw [hgd]
    simp only [hl]
    exact scanFiles_loads cfg fs d ptype pid code hdis hfs hexec hset hok hu files st hmem
      (Or.inr hnm)

theorem C1_witness :
    (Event.setupCall "p" ∉ (load_plugins_by_type c1cfg c1listing c1fs emptyLoader "tools").2 ∧
     assocGet (load_plugins_by_type c1cfg c1listing c1fs emptyLoader
         "tools").1.loaded_plugins "p" = assocGet emptyLoader.loaded_plugins "p") ∧
    (assocGet (load_plugins_by_type c1cfgEnabled c1listing c1fs emptyLoader
        "tools").1.loaded_plugins "p").isSome = true :=
  ⟨C1_disabled_enforced_on_scan_only.1 c1cfg c1listing c1fs emptyLoader "tools" "p" (by decide),
   C1_disabled_enforced_on_scan_only.2 c1cfgEnabled c1listing c1fs emptyLoader "tools" "p"
     "pt" ["p.py"] okModule rfl rfl (by decide) (by decide) (by decide) rfl rfl rfl
     (by decide) (by decide)⟩

/-! ## C8: the watcher's directory list is fixed at startup -/

/-- Every event emitted by `reload_plugin` names the id it was called
with; none concerns directory scanning. -/
theorem reload_plugin_events (cfg : Value) (fs : String → Option ModuleCode)
    (st : LoaderState) (pid : String) (e : Event)
    (he : e ∈ (reload_plugin cfg fs st pid).2.2) :
    e = .logNotLoaded pid ∨ e = .logReloadError pid ∨ e = .setupCall pid ∨
    e = .logLoadError pid ∨ e = .logNoSetup pid := by
  revert he
  unfold reload_plugin
  cases hl : assocGet st.loaded_plugins pid with
  | none => intro he; simp at he; simp [he]
  | some m =>
    cases hp : assocGet st.plugin_paths pid with
    | none => intro he; simp at he; simp [he]
    | some fp =>
      cases ht : findPluginType cfg fp with
      | error u => simp only [ht]; intro he; simp at he; simp [he]
      | ok o =>
        cases o with
        | none => simp only [ht]; intro he; simp at he; simp [he]
        | some t =>
          simp only [ht]
          intro he
          rcases load_plugin_file_events _ _ _ _ _ _ he with h | h | h <;> simp [h]

/-- One file check appends only non-`dirScanned` events. -/
theorem watchOneFile_events_shape (cfg : Value) (mtimeOf : String → Option Int)
    (fs : String → Option ModuleCode) (dir : String)
    (acc : List (String × Int) × LoaderState × List Event) (f : String) :
    ∃ extra : List Event, (watchOneFile cfg mtimeOf fs dir acc f).2.2 = acc.2.2 ++ extra ∧
      ∀ e ∈ extra, ∀ d, e ≠ Event.dirScanned d := by
  unfold watchOneFile
  cases hf : isPluginFile f with
  | false => exact ⟨[], by simp [hf], by simp⟩
  | true =>
    cases hm : mtimeOf (osPathJoin dir f) with
    | none =>
      refine ⟨[.logFileCheckError (osPathJoin dir f)], by simp [hf, hm], ?_⟩
      intro e he d
      simp at he
      simp [he]
    | some mt =>
      by_cases heq : assocGet acc.1 (osPathJoin dir f) = some mt
      · exact ⟨[], by simp [hf, hm, heq], by simp⟩
      · cases hload : (assocGet acc.2.1.loaded_plugins (stripExt3 f)).isSome with
        | true =>
          refine ⟨(reload_plugin cfg fs acc.2.1 (stripExt3 f)).2.2,
            by simp [hf, hm, heq, hload], ?_⟩
          intro e he d hcontra
          subst hcontra
          rcases reload_plugin_events _ _ _ _ _ he with h | h | h | h | h <;> simp at h
        | false =>
          cases hfind : pluginTypes.find?
              (fun t => valueEq (.str dir) (get_plugin_directory cfg t)) with
          | some t =>
            refine ⟨(load_plugin_file fs acc.2.1 (stripExt3 f) (osPathJoin dir f) t).2,
              by simp [hf, hm, heq, hload, hfind], ?_⟩
            intro e he d hcontra
            subst hcontra
            rcases load_plugin_file_events _ _ _ _ _ _ he with h | h | h <;> simp at h
          | none => exact ⟨[], by simp [hf, hm, heq, hload, hfind], by simp⟩

theorem foldl_watchOneFile_dirScanned (cfg : Value) (mtimeOf : String → Option Int)
    (fs : String → Option ModuleCode) (dir : String) :
    ∀ (files : List String) (acc : List (String × Int) × LoaderState × List Event) (d : String),
      Event.dirScanned d ∈ (files.foldl (watchOneFile cfg mtimeOf fs dir) acc).2.2 →
      Event.dirScanned d ∈ acc.2.2 := by
  intro files
  induction files with
  | nil => intro acc d h; simpa using h
  | cons f rest ih =>
    intro acc d h
    have h1 := ih (watchOneFile cfg mtimeOf fs dir acc f) d (by simpa using h)
    obtain ⟨extra, hsh, hne⟩ := watchOneFile_events_shape cfg mtimeOf fs dir acc f
    rw [hsh] at h1
    rcases List.mem_append.mp h1 with hh | hh
    · exact hh
    · exact absurd rfl (hne _ hh d)

theorem watchDir_dirScanned (cfg : Value) (listing : String → Option (List String))
    (mtimeOf : String → Option Int) (fs : String → Option ModuleCode) (dd : String)
    (acc : List (String × Int) × LoaderState × List Event) (d : String)
    (h : Event.dirScanned d ∈ (watchDir cfg listing mtimeOf fs dd acc).2.2) :
    Event.dirScanned d ∈ acc.2.2 := by
  revert h
  unfold watchDir
  cases hl : listing dd with
  | none => intro h; simpa using h
  | some files =>
    intro h
    exact foldl_watchOneFile_dirScanned cfg mtimeOf fs dd files acc d (by simpa using h)

theorem watchDirs_dirScanned (cfg : Value) (listing : String → Option (List String))
    (mtimeOf : String → Option Int) (fs : String → Option ModuleCode) :
    ∀ (dirs : List Value) (acc : List (String × Int) × LoaderState × List Event) (d : String),
      Event.dirScanned d ∈ (watchDirs cfg listing mtimeOf fs dirs acc).2.2 →
      Event.dirScanned d ∈ acc.2.2 ∨ Value.str d ∈ dirs := by
  intro dirs
  induction dirs with
  | nil => intro acc d h; exact Or.inl (by simpa [watchDirs] using h)
  | cons v rest ih =>
    intro acc d h
    cases v with
    | str dd =>
      have h' : Event.dirScanned d ∈ (watchDirs cfg listing mtimeOf fs rest
          (watchDir cfg listing mtimeOf fs dd
            (acc.1, acc.2.1, acc.2.2 ++ [Event.dirScanned dd]))).2.2 := by
        simpa [watchDirs] using h
      rcases ih _ d h' with hh | hh
      · have h2 := watchDir_dirScanned cfg listing mtimeOf fs dd
          (acc.1, acc.2.1, acc.2.2 ++ [Event.dirScanned dd]) d hh
        rcases List.mem_append.mp h2 with h3 | h3
        · exact Or.inl h3
        · simp at h3
          exact Or.inr (by simp [h3])
      · exact Or.inr (List.mem_cons_of_mem _ hh)
    | num n => simp only [watchDirs] at h; rcases List.mem_append.mp h with hh | hh
                 <;> simp_all
    | bool b => simp only [watchDirs] at h; rcases List.mem_append.mp h with hh | hh
                 <;> simp_all
    | null => simp only [watchDirs] at h; rcases List.mem_append.mp h with hh | hh
                 <;> simp_all
    | obj o => simp only [watchDirs] at h; rcases List.mem_append.mp h with hh | hh
                 <;> simp_all
    | arr a => simp only [watchDirs] at h; rcases List.mem_append.mp h with hh | hh
                 <;> simp_all

/-- The watcher started under a config whose tools directory is
`dirA`. -/
def c8cfg0 : Value :=
  .obj [("plugins", .obj [("directories", .obj [("tools", .str "dirA")])])]

/-- The current config after `set`+`save` moved the tools directory to
`dirB`. -/
def c8cfg1 : Value :=
  .obj [("plugins", .obj [("directories", .obj [("tools", .str "dirB")])])]

/-- Only `dirB` exists and holds a valid plugin file. -/
def c8listing : String → Option (List String) :=
  fun d => if d = "dirB" then some ["p.py"] else none

def c8mtime : String → Option Int := fun p => if p = "dirB/p.py" then some 1 else none

def c8fs : String → Option ModuleCode := fun p => if p = "dirB/p.py" then some okModule else none

/-- **C8 counterexample.** The watcher was started while the tools
directory was `dirA`; the configuration was then changed to `dirB`,
where a valid plugin file sits.  The next poll cycle, run against the
current configuration, still scans `dirA` and never `dirB`, and loads
nothing — while a watcher started under the current configuration does
load the plugin.  So a cycle does not recompute the directory list
from the current configuration, and a directory change via `set`+`save`
does not take effect. -/
theorem C8_counterexample :
    get_plugin_directory c8cfg1 "tools" = .str "dirB" ∧
    (watcherCycle c8cfg1 c8listing c8mtime c8fs (watcherInit c8cfg0) emptyLoader).2.1
      = emptyLoader ∧
    Event.dirScanned "dirB" ∉
      (watcherCycle c8cfg1 c8listing c8mtime c8fs (watcherInit c8cfg0) emptyLoader).2.2 ∧
    (watcherCycle c8cfg1 c8listing c8mtime c8fs (watcherInit c8cfg1)
        emptyLoader).2.1.loaded_plugins = [("p", okModule)] := by
  refine ⟨rfl, by decide, by decide, by decide⟩

/-- **C8 (amended).** The list of plugin directories is computed once,
when the watcher starts; every poll cycle reuses that list unchanged
and scans only directories from it, whatever the current configuration
says — so a plugin-directory change made via `set` and `save` does not
take effect on the scanned directories without restarting the watcher.
(The current configuration is consulted during a cycle only to classify
a new file's kind.) -/
theorem C8_watcher_scans_startup_directories :
    (∀ (cfg : Value) (listing : String → Option (List String))
       (mtimeOf : String → Option Int) (fs : String → Option ModuleCode)
       (ws : WatcherState) (st : LoaderState),
       (watcherCycle cfg listing mtimeOf fs ws st).1.plugin_dirs = ws.plugin_dirs) ∧
    (∀ (cfg : Value) (listing : String → Option (List String))
       (mtimeOf : String → Option Int) (fs : String → Option ModuleCode)
       (ws : WatcherState) (st : LoaderState) (d : String),
       Event.dirScanned d ∈ (watcherCycle cfg listing mtimeOf fs ws st).2.2 →
       Value.str d ∈ ws.plugin_dirs) := by
  constructor
  · intro cfg listing mtimeOf fs ws st
    rfl
  · intro cfg listing mtimeOf fs ws st d h
    rcases watchDirs_dirScanned cfg listing mtimeOf fs ws.plugin_dirs
        (ws.file_mtimes, st, []) d h with hh | hh
    · simp at hh
    · exact hh

theorem C8_witness :
    (watcherCycle c8cfg1 c8listing c8mtime c8fs (watcherInit c8cfg0)
        emptyLoader).1.plugin_dirs = (watcherInit c8cfg0).plugin_dirs ∧
    Value.str "dirA" ∈ (watcherInit c8cfg0).plugin_dirs :=
  ⟨C8_watcher_scans_startup_directories.1 c8cfg1 c8listing c8mtime c8fs
      (watcherInit c8cfg0) emptyLoader,
   C8_watcher_scans_startup_directories.2 c8cfg1 c8listing c8mtime c8fs
      (watcherInit c8cfg0) emptyLoader "dirA" (by decide)⟩

end PluginHost
